import Mathlib

/-!
Verification of the audio-analyzer core of the `voa` repository: a shallow
embedding of `features.py` (data model), `alignment.py` (DTW alignment,
path segmentation, time stretch) and `comparison.py` (segment/word scoring
and rule-based issue detection), with theorems about the embedded functions.

Conventions of the embedding:
  * numpy float arrays become lists of rationals (`List ℚ`); a coefficient
    matrix (`n_mfcc × n_frames`) becomes a list of rows (`List (List ℚ)`);
  * real-valued operations with no exact rational form (square roots inside
    cosine similarity and `np.std`) are embedded over `ℝ`;
  * Python `int` frame indices become `ℤ`; Python slicing `x[a:b]` with the
    non-negative bounds arising at every call site becomes drop/take;
  * `np.mean` of an empty array (NaN in numpy, which no guarded call site
    produces) is embedded as `0` via division by zero.
-/

set_option maxHeartbeats 1000000

open scoped Classical

/-- Mean of a list of rationals (`np.mean` on a 1-D array); `0` on the empty
list, where numpy would give NaN (no guarded call site passes one). -/
def listMean (l : List ℚ) : ℚ := l.sum / l.length

/-- Population variance of a list of rationals (`np.var`). -/
def listVar (l : List ℚ) : ℚ := listMean (l.map (fun x => (x - listMean l) ^ 2))

/-- Dot product of two coefficient vectors. -/
def dotList (u v : List ℚ) : ℚ := (List.zipWith (fun a b => a * b) u v).sum

/-- Total number of entries of a matrix (`ndarray.size`). -/
def msize (M : List (List ℚ)) : ℕ := (M.map List.length).sum

/-- Per-row means of a matrix (`np.mean(M, axis=1)`). -/
def rowMeans (M : List (List ℚ)) : List ℚ := M.map listMean

/-- Per-row variances of a matrix (`np.var(M, axis=1)`). -/
def rowVars (M : List (List ℚ)) : List ℚ := M.map listVar

/-- Column slice `M[:, a:b]` of a row-list matrix; every call site passes
non-negative bounds (path coordinates or clamped frame indices). -/
def colSlice (M : List (List ℚ)) (a b : ℤ) : List (List ℚ) :=
  M.map (fun row => (row.drop a.toNat).take (b.toNat - a.toNat))

/-- Row slice `M[a:b, :]` of a row-list matrix. -/
def rowSlice (M : List (List ℚ)) (a b : ℕ) : List (List ℚ) := (M.drop a).take (b - a)

/-- Slice `l[a:b]` of a 1-D array; every call site passes non-negative bounds. -/
def seqSlice (l : List ℚ) (a b : ℤ) : List ℚ := (l.drop a.toNat).take (b.toNat - a.toNat)

/-- Mean over all entries of a (sliced) matrix (`np.mean` on a 2-D array). -/
def matMean (M : List (List ℚ)) : ℚ := listMean M.flatten

/-- Python `int()` applied to a rational: truncation toward zero. -/
def pyint (q : ℚ) : ℤ := if 0 ≤ q then ⌊q⌋ else ⌈q⌉

/-- Python list indexing with its negative-index wrap-around (`l[-1]` is the
last element); callers only reach indices that are in range after the wrap. -/
def pyGetD {α : Type} (l : List α) (i : ℤ) (d : α) : α :=
  if 0 ≤ i then l.getD i.toNat d else l.getD ((l.length : ℤ) + i).toNat d

/-- Maximum of a list of rationals (`np.max`); every call site passes a
non-empty list of absolute values, where this agrees with numpy. -/
def maxQ (l : List ℚ) : ℚ := l.foldr max 0

/-- Absolute first differences (`np.abs(np.diff(l))`). -/
def pyDiffAbs (l : List ℚ) : List ℚ := List.zipWith (fun a b => |b - a|) l l.tail

/-- Population standard deviation (`np.std`): the square root of the
variance, over `ℝ`. -/
noncomputable def pyStd (l : List ℚ) : ℝ := Real.sqrt ((listVar l : ℚ) : ℝ)

/-- Mean of a list of reals, `0` on the empty list (`np.mean`). -/
noncomputable def listMeanR (l : List ℝ) : ℝ := l.sum / l.length

/-- Cosine similarity of two coefficient vectors: `1 - scipy cosine distance`,
that is `u·v / (‖u‖ ‖v‖)`. -/
noncomputable def cosine_similarity (u v : List ℚ) : ℝ :=
  ((dotList u v : ℚ) : ℝ) /
    (Real.sqrt ((dotList u u : ℚ) : ℝ) * Real.sqrt ((dotList v v : ℚ) : ℝ))

/-- `features.AudioFeatures`: the per-recording feature container. The
`mfcc` matrix is stored as a list of coefficient rows, each holding one
value per frame. -/
structure AudioFeatures where
  audio : List ℚ
  sample_rate : ℕ
  duration : ℚ
  mfcc : List (List ℚ)
  mfcc_delta : List (List ℚ)
  spectral_centroid : List ℚ
  pitch : List ℚ
  pitch_confidence : List ℚ
  rms_energy : List ℚ
  zero_crossing_rate : List ℚ
  frame_times : List ℚ
  hop_length : ℕ
  n_frames : ℕ

/-- `alignment.AlignmentResult`: the DTW output. The two frame maps are
kept as association lists in insertion order (Python dicts). -/
structure AlignmentResult where
  path : List (ℕ × ℕ)
  distance : ℝ
  normalized_distance : ℝ
  user_to_ref : List (ℕ × ℕ)
  ref_to_user : List (ℕ × ℕ)
  time_stretch : List ℚ

/-- `comparison.SegmentFeedback`. -/
structure SegmentFeedback where
  start_time : ℚ
  end_time : ℚ
  makhraj_score : ℝ
  timing_score : ℝ
  overall_score : ℝ
  issues : List String

/-- `comparison.PronunciationReport`. -/
structure PronunciationReport where
  overall_score : ℝ
  makhraj_score : ℝ
  timing_score : ℝ
  fluency_score : ℝ
  segments : List SegmentFeedback
  summary : String

/-- One record of the word-timing list fed to `compare_word_by_word`. -/
structure WordTiming where
  word_index : ℕ
  text : String
  start_ms : ℚ
  end_ms : ℚ

/-- One word-level feedback dictionary produced by `compare_word_by_word`. -/
structure WordResult where
  word_index : ℕ
  text : String
  start_time : ℚ
  end_time : ℚ
  makhraj_score : ℝ
  timing_score : ℝ
  overall_score : ℝ
  issues : List String

/-- Duration in seconds of the frame span `[a, b)` of a feature set:
`(b - a) * hop_length / sample_rate`, as in `compare_timing_segment`,
`detect_issues` and `compute_time_stretch`. -/
def frame_span_seconds (f : AudioFeatures) (a b : ℤ) : ℚ :=
  ((b - a : ℤ) : ℚ) * (f.hop_length : ℚ) / (f.sample_rate : ℚ)

/-- Frame vector `i` of a feature set: column `i` of its MFCC matrix
(a row of the transposed matrix handed to `dtw`). -/
def mfccFrame (f : AudioFeatures) (i : ℕ) : List ℚ := f.mfcc.map (fun row => row.getD i 0)

/-- Modelled from the spec: the local distance of the DTW search run by
`align_audio_features` - the Euclidean distance between the two
articulation-coefficient frame vectors. The search itself is delegated to
the external `dtw` library, which is not part of this repository. -/
noncomputable def localDist (u r : AudioFeatures) (i j : ℕ) : ℝ :=
  Real.sqrt (((List.zipWith (fun a b => (a - b) ^ 2) (mfccFrame u i) (mfccFrame r j)).sum : ℚ) : ℝ)

/-- Modelled from the spec: the accumulated-cost matrix of the DTW search
with the `symmetric2` step pattern (diagonal, horizontal and vertical
steps; the diagonal step weighs its local distance twice). The external
`dtw` library that computes it is not part of this repository. -/
noncomputable def dtwAccCost (d : ℕ → ℕ → ℝ) : ℕ → ℕ → ℝ
  | 0, 0 => 2 * d 0 0
  | 0, j + 1 => dtwAccCost d 0 j + d 0 (j + 1)
  | i + 1, 0 => dtwAccCost d i 0 + d (i + 1) 0
  | i + 1, j + 1 =>
      min (dtwAccCost d i j + 2 * d (i + 1) (j + 1))
        (min (dtwAccCost d i (j + 1) + d (i + 1) (j + 1))
          (dtwAccCost d (i + 1) j + d (i + 1) (j + 1)))
  termination_by i j => i + j
  decreasing_by all_goals omega

/-- Modelled from the spec: backtracking of the optimal warping path from
cell `(i, j)` to `(0, 0)` through the accumulated-cost matrix `D`, taking at
each cell the cheapest of the diagonal, vertical and horizontal
predecessors (the `symmetric2` step pattern of the external `dtw`
library, which is not part of this repository). -/
noncomputable def dtwBacktrack (D : ℕ → ℕ → ℝ) : ℕ → ℕ → List (ℕ × ℕ)
  | 0, 0 => [(0, 0)]
  | 0, j + 1 => (0, j + 1) :: dtwBacktrack D 0 j
  | i + 1, 0 => (i + 1, 0) :: dtwBacktrack D i 0
  | i + 1, j + 1 =>
      if D i j ≤ D i (j + 1) ∧ D i j ≤ D (i + 1) j then (i + 1, j + 1) :: dtwBacktrack D i j
      else if D i (j + 1) ≤ D (i + 1) j then (i + 1, j + 1) :: dtwBacktrack D i (j + 1)
      else (i + 1, j + 1) :: dtwBacktrack D (i + 1) j
  termination_by i j => i + j
  decreasing_by all_goals omega

/-- Modelled from the spec: the warping path of the DTW alignment of an
`n`-frame series against an `m`-frame series (`alignment.index1` zipped
with `alignment.index2`), from `(0, 0)` to `(n - 1, m - 1)`. -/
noncomputable def dtwPath (D : ℕ → ℕ → ℝ) (n m : ℕ) : List (ℕ × ℕ) :=
  (dtwBacktrack D (n - 1) (m - 1)).reverse

/-- Write `k ↦ v` into an association list, overwriting an existing entry
for `k` (Python dict assignment, insertion order kept). -/
def assocSet (l : List (ℕ × ℕ)) (k v : ℕ) : List (ℕ × ℕ) :=
  if l.any (fun p => p.1 = k) then l.map (fun p => if p.1 = k then (k, v) else p)
  else l ++ [(k, v)]

/-- The `user_to_ref` map of `align_audio_features`: iterate the path,
keeping the last reference frame written for each user frame. -/
def buildForwardMap (path : List (ℕ × ℕ)) : List (ℕ × ℕ) :=
  path.foldl (fun acc p => assocSet acc p.1 p.2) []

/-- The `ref_to_user` map of `align_audio_features`: iterate the path,
keeping only the first user frame written for each reference frame. -/
def buildReverseMap (path : List (ℕ × ℕ)) : List (ℕ × ℕ) :=
  path.foldl (fun acc p => if acc.any (fun q => q.1 = p.2) then acc else acc ++ [(p.2, p.1)]) []

/-- The segment loop of `compute_time_stretch`: segment index `i` runs while
fuel remains, stopping early when a boundary index falls outside the path
(the `break`). -/
def timeStretchAux (path : List (ℕ × ℕ)) (uf rf : AudioFeatures) (segment_size : ℕ) :
    ℕ → ℕ → List ℚ
  | 0, _ => []
  | fuel + 1, i =>
      let start_idx := i * segment_size
      let end_idx := min ((i + 1) * segment_size) (path.length - 1)
      if path.length ≤ start_idx ∨ path.length ≤ end_idx then []
      else
        let ps := path.getD start_idx (0, 0)
        let pe := path.getD end_idx (0, 0)
        let user_time := frame_span_seconds uf (ps.1 : ℤ) (pe.1 : ℤ)
        let ref_time := frame_span_seconds rf (ps.2 : ℤ) (pe.2 : ℤ)
        let stretch := if 0 < ref_time then user_time / ref_time else 1
        stretch :: timeStretchAux path uf rf segment_size fuel (i + 1)

/-- `alignment.compute_time_stretch`: local duration ratios over
`segment_frames`-sized chunks of the path; `[1]` for degenerate paths. -/
def compute_time_stretch (path : List (ℕ × ℕ)) (uf rf : AudioFeatures)
    (segment_frames : ℕ := 20) : List ℚ :=
  if path.length < 2 then [1]
  else
    let n_segments := max 1 (path.length / segment_frames)
    let segment_size := path.length / n_segments
    let stretches := timeStretchAux path uf rf segment_size n_segments 0
    if stretches = [] then [1] else stretches

/-- The core of `alignment.align_audio_features` once the two MFCC matrices
are dimension-compatible: run the (spec-modelled) DTW search and package
the path, distances, frame maps and time-stretch sequence. -/
noncomputable def alignCore (u r : AudioFeatures) : AlignmentResult :=
  let D := dtwAccCost (localDist u r)
  let path := dtwPath D u.n_frames r.n_frames
  { path := path
    distance := D (u.n_frames - 1) (r.n_frames - 1)
    normalized_distance := D (u.n_frames - 1) (r.n_frames - 1) / ((u.n_frames : ℝ) + (r.n_frames : ℝ))
    user_to_ref := buildForwardMap path
    ref_to_user := buildReverseMap path
    time_stretch := compute_time_stretch path u r }

/-- `alignment.align_audio_features`. Modelled from the spec: the dimension
check lives inside the external `dtw` library (its pairwise-distance
computation rejects frame vectors of different coefficient counts); the
spec names this failure `DimensionMismatch`. -/
noncomputable def align_audio_features (u r : AudioFeatures) :
    Except String AlignmentResult :=
  if u.mfcc.length = r.mfcc.length then Except.ok (alignCore u r)
  else Except.error "DimensionMismatch"

/-- The boundary indices `(start_idx, end_idx)` used by `segment_alignment`
for segment `i` of a path of length `L` split into `n` segments:
`start_idx = i * (L / n)`, `end_idx = min ((i+1) * (L / n) - 1, L - 1)`,
over `ℤ` because `end_idx` is `-1` in Python when `L / n = 0`. -/
def segmentRange (L n i : ℕ) : ℤ × ℤ :=
  ((i * (L / n) : ℕ), min ((((i + 1) * (L / n) : ℕ) : ℤ) - 1) ((L : ℤ) - 1))

/-- `alignment.segment_alignment`: divide the path into `n_segments` chunks
and return, per chunk, the user-frame and reference-frame spans at its
boundary path entries. -/
def segment_alignment (alignment : AlignmentResult) (n_segments : ℕ := 10) :
    List ((ℕ × ℕ) × (ℕ × ℕ)) :=
  (List.range n_segments).map (fun i =>
    let r := segmentRange alignment.path.length n_segments i
    let ps := pyGetD alignment.path r.1 (0, 0)
    let pe := pyGetD alignment.path r.2 (0, 0)
    ((ps.1, pe.1), (ps.2, pe.2)))

/-- `comparison.compare_mfcc_segment`: articulation score of two MFCC
windows - `50` for an empty window, otherwise a clamped affine rescale of
`0.7 * (cosine similarity of the per-coefficient means) + 0.3 * (cosine
similarity of the ε-stabilised per-coefficient variances)`. -/
noncomputable def compare_mfcc_segment (user_mfcc ref_mfcc : List (List ℚ)) : ℝ :=
  if msize user_mfcc = 0 ∨ msize ref_mfcc = 0 then 50
  else
    let similarity := cosine_similarity (rowMeans user_mfcc) (rowMeans ref_mfcc)
    let var_similarity :=
      cosine_similarity ((rowVars user_mfcc).map (fun x => x + 1 / 1000000))
        ((rowVars ref_mfcc).map (fun x => x + 1 / 1000000))
    let combined := 0.7 * similarity + 0.3 * var_similarity
    min 100 (max 0 ((combined - 0.3) / 0.7) * 100)

/-- The piecewise score of `compare_timing_segment` as a function of the
duration quotient: the three ratio bands of the source. -/
def timing_band_score (rat : ℚ) : ℚ :=
  if 0.8 ≤ rat ∧ rat ≤ 1.2 then 100 - |rat - 1| / 0.2 * 20
  else if 0.5 ≤ rat ∧ rat ≤ 1.5 then
    if rat < 1 then 80 - (0.8 - rat) / 0.3 * 30 else 80 - (rat - 1.2) / 0.3 * 30
  else max 0 (50 - |rat - 1| * 25)

/-- `comparison.compare_timing_segment`: duration-ratio score of two frame
spans; `50` when the reference span has zero duration, otherwise the band
score of the ratio clamped into `[0, 100]`. -/
def compare_timing_segment (user_start user_end : ℤ) (user_features : AudioFeatures)
    (ref_start ref_end : ℤ) (ref_features : AudioFeatures) : ℚ :=
  let user_duration := frame_span_seconds user_features user_start user_end
  let ref_duration := frame_span_seconds ref_features ref_start ref_end
  if ref_duration = 0 then 50
  else min 100 (max 0 (timing_band_score (user_duration / ref_duration)))

/-- The timing checks of `detect_issues` (ratio below `0.7` or above `1.5`,
guarded against a zero reference duration). -/
def detect_timing_piece (uf rf : AudioFeatures) (user_start user_end ref_start ref_end : ℤ) :
    List String :=
  let ref_duration := frame_span_seconds rf ref_start ref_end
  if 0 < ref_duration then
    let rat := frame_span_seconds uf user_start user_end / ref_duration
    if rat < 0.7 then ["Reciting too fast - consider slowing down for proper madd"]
    else if 1.5 < rat then ["Reciting too slow - elongation may be excessive"]
    else []
  else []

/-- The low-MFCC-band check of the score-below-80 block of `detect_issues`:
low band difference above `5` flags a throat or tongue message. -/
def makhraj_low_msgs (user_low ref_low low_diff : ℚ) : List String :=
  if 5 < low_diff then
    if user_low < ref_low then ["Throat position may need adjustment - try deeper articulation"]
    else ["Tongue position differs from reference - check makhraj"]
  else []

/-- The high-MFCC-band check of the score-below-80 block of `detect_issues`. -/
def makhraj_high_msgs (high_diff : ℚ) : List String :=
  if 3 < high_diff then ["Fine articulation differs - focus on letter clarity"] else []

/-- The spectral-brightness check of the score-below-80 block of
`detect_issues`. -/
def makhraj_centroid_msgs (centroid_rat : ℚ) : List String :=
  if centroid_rat < 0.7 then ["Sound is duller than reference - more clarity needed"]
  else if 1.4 < centroid_rat then ["Sound is sharper than reference - soften the articulation"]
  else []

/-- The severe checks of the score-below-60 block of `detect_issues`. -/
def makhraj_severe_msgs (low_diff high_diff : ℚ) : List String :=
  (if 8 < low_diff then ["Significant makhraj difference detected - review articulation point"]
   else [])
  ++ (if 5 < high_diff then ["Letter characteristics need improvement"] else [])

/-- The makhraj (articulation) checks of `detect_issues`: low/high MFCC band
mean differences and the spectral-centroid ratio, gated on the articulation
score being below `80`, with two severe checks gated below `60`. -/
noncomputable def detect_makhraj_piece (uf rf : AudioFeatures)
    (user_start user_end ref_start ref_end : ℤ) (makhraj_score : ℝ) : List String :=
  let user_mfcc := colSlice uf.mfcc user_start (user_end + 1)
  let ref_mfcc := colSlice rf.mfcc ref_start (ref_end + 1)
  if 0 < msize user_mfcc ∧ 0 < msize ref_mfcc then
    let user_low := matMean (rowSlice user_mfcc 1 5)
    let ref_low := matMean (rowSlice ref_mfcc 1 5)
    let low_diff := |user_low - ref_low|
    let user_high := if 8 < user_mfcc.length then matMean (rowSlice user_mfcc 5 9) else 0
    let ref_high := if 8 < ref_mfcc.length then matMean (rowSlice ref_mfcc 5 9) else 0
    let high_diff := |user_high - ref_high|
    let user_centroid := listMean (seqSlice uf.spectral_centroid user_start (user_end + 1))
    let ref_centroid := listMean (seqSlice rf.spectral_centroid ref_start (ref_end + 1))
    let centroid_rat := if 0 < ref_centroid then user_centroid / ref_centroid else 1
    (if makhraj_score < 80 then
      makhraj_low_msgs user_low ref_low low_diff
      ++ makhraj_high_msgs high_diff
      ++ makhraj_centroid_msgs centroid_rat
    else [])
    ++ (if makhraj_score < 60 then makhraj_severe_msgs low_diff high_diff else [])
  else []

/-- The mean-pitch-ratio check of `detect_issues`. -/
def pitch_level_msgs (pitch_rat : ℚ) : List String :=
  if 1.3 < pitch_rat then ["Pitch is too high - recite in a lower, more natural tone"]
  else if pitch_rat < 0.7 then ["Pitch is too low - raise your tone slightly"]
  else []

/-- The pitch-variation (standard deviation) check of `detect_issues`. -/
noncomputable def pitch_std_msgs (user_voiced ref_voiced : List ℚ) : List String :=
  if pyStd ref_voiced * 1.5 < pyStd user_voiced then
    ["Pitch variation detected - maintain steadier tone"]
  else []

/-- The sudden-pitch-jump check of `detect_issues`. -/
def pitch_jump_msgs (user_voiced ref_voiced : List ℚ) : List String :=
  if 3 < user_voiced.length then
    let max_jump := maxQ (pyDiffAbs user_voiced)
    let ref_max_jump := if 3 < ref_voiced.length then maxQ (pyDiffAbs ref_voiced) else 50
    if ref_max_jump * 1.5 < max_jump ∧ 30 < max_jump then
      ["Sudden pitch change detected - keep tone consistent"]
    else []
  else []

/-- The pitch checks of `detect_issues`: mean-pitch ratio, pitch-variation
(standard deviation) ratio and maximal adjacent-frame jump, over voiced
frames only. -/
noncomputable def detect_pitch_piece (uf rf : AudioFeatures)
    (user_start user_end ref_start ref_end : ℤ) : List String :=
  if user_start < user_end ∧ ref_start < ref_end then
    let user_voiced := (seqSlice uf.pitch user_start (user_end + 1)).filter (fun x => 0 < x)
    let ref_voiced := (seqSlice rf.pitch ref_start (ref_end + 1)).filter (fun x => 0 < x)
    if 0 < user_voiced.length ∧ 0 < ref_voiced.length then
      let user_mean_pitch := listMean user_voiced
      let ref_mean_pitch := listMean ref_voiced
      let pitch_rat := if 0 < ref_mean_pitch then user_mean_pitch / ref_mean_pitch else 1
      pitch_level_msgs pitch_rat
      ++ pitch_std_msgs user_voiced ref_voiced
      ++ pitch_jump_msgs user_voiced ref_voiced
    else []
  else []

/-- The energy checks of `detect_issues`: RMS-energy ratio, guarded against
a zero reference energy. -/
def detect_energy_piece (uf rf : AudioFeatures)
    (user_start user_end ref_start ref_end : ℤ) : List String :=
  if user_start < user_end ∧ ref_start < ref_end then
    let user_energy := listMean (seqSlice uf.rms_energy user_start (user_end + 1))
    let ref_energy := listMean (seqSlice rf.rms_energy ref_start (ref_end + 1))
    if 0 < ref_energy then
      let energy_rat := user_energy / ref_energy
      if energy_rat < 0.5 then ["Consider more emphasis/projection"]
      else if 2 < energy_rat then ["Reduce volume for this segment"]
      else []
    else []
  else []

/-- `comparison.detect_issues`: the fixed sequence of heuristic checks for a
segment - timing, then articulation, then pitch, then energy; each check
appends zero or one message. -/
noncomputable def detect_issues (uf rf : AudioFeatures)
    (user_start user_end ref_start ref_end : ℤ) (makhraj_score timing_score : ℝ) :
    List String :=
  detect_timing_piece uf rf user_start user_end ref_start ref_end
    ++ detect_makhraj_piece uf rf user_start user_end ref_start ref_end makhraj_score
    ++ detect_pitch_piece uf rf user_start user_end ref_start ref_end
    ++ detect_energy_piece uf rf user_start user_end ref_start ref_end

/-- `comparison.detect_word_issues`: the word-level variant of the heuristic
checks, with its own (tighter) threshold table and word-sized slices. -/
noncomputable def detect_word_issues (uf rf : AudioFeatures)
    (user_start user_end ref_start ref_end : ℤ) (makhraj_score : ℝ) (timing_score : ℚ)
    (word_text : String) : List String :=
  if user_end ≤ user_start ∨ ref_end ≤ ref_start then []
  else
    (let ref_duration := frame_span_seconds rf ref_start ref_end
     if 0 < ref_duration then
       let rat := frame_span_seconds uf user_start user_end / ref_duration
       if rat < 0.6 then ["Too fast - extend this word"]
       else if 1.6 < rat then ["Too slow - shorten this word"]
       else []
     else [])
    ++ (if makhraj_score < 75 then
          let user_mfcc := colSlice uf.mfcc user_start user_end
          let ref_mfcc := colSlice rf.mfcc ref_start ref_end
          if 0 < msize user_mfcc ∧ 0 < msize ref_mfcc then
            let user_low := matMean (rowSlice user_mfcc 1 5)
            let ref_low := matMean (rowSlice ref_mfcc 1 5)
            let low_diff := |user_low - ref_low|
            let user_high := if 8 < user_mfcc.length then matMean (rowSlice user_mfcc 5 9) else 0
            let ref_high := if 8 < ref_mfcc.length then matMean (rowSlice ref_mfcc 5 9) else 0
            let high_diff := |user_high - ref_high|
            (if 6 < low_diff then
              if user_low < ref_low then ["Articulation point too shallow"]
              else ["Articulation point too deep"]
            else [])
            ++ (if 4 < high_diff ∧ makhraj_score < 65 then ["Letter clarity needs work"] else [])
          else []
        else [])
    ++ (if user_start < user_end ∧ ref_start < ref_end then
          let user_voiced := (seqSlice uf.pitch user_start user_end).filter (fun x => 0 < x)
          let ref_voiced := (seqSlice rf.pitch ref_start ref_end).filter (fun x => 0 < x)
          if 0 < user_voiced.length ∧ 0 < ref_voiced.length then
            let user_mean_pitch := listMean user_voiced
            let ref_mean_pitch := listMean ref_voiced
            let pitch_rat := if 0 < ref_mean_pitch then user_mean_pitch / ref_mean_pitch else 1
            (if 1.4 < pitch_rat then ["Pitch too high"]
             else if pitch_rat < 0.65 then ["Pitch too low"]
             else [])
            ++ (if 3 < user_voiced.length then
                  let max_jump := maxQ (pyDiffAbs user_voiced)
                  let ref_max_jump := if 3 < ref_voiced.length then maxQ (pyDiffAbs ref_voiced) else 40
                  if ref_max_jump * 1.4 < max_jump ∧ 25 < max_jump then ["Unstable pitch"] else []
                else [])
          else []
        else [])
    ++ (if user_start < user_end ∧ ref_start < ref_end then
          let user_energy := listMean (seqSlice uf.rms_energy user_start user_end)
          let ref_energy := listMean (seqSlice rf.rms_energy ref_start ref_end)
          if 0 < ref_energy then
            let energy_rat := user_energy / ref_energy
            if energy_rat < 0.4 then ["Too quiet"]
            else if 2.5 < energy_rat then ["Too loud"]
            else []
          else []
        else [])

/-- `comparison.generate_summary`: deterministic threshold-banded summary. -/
noncomputable def generate_summary (overall_score makhraj_score timing_score fluency_score : ℝ)
    (segments : List SegmentFeedback) : String :=
  let parts :=
    [if 90 ≤ overall_score then "Excellent recitation! Very close to the reference."
     else if 75 ≤ overall_score then "Good recitation with minor areas for improvement."
     else if 60 ≤ overall_score then "Acceptable recitation. Focus on the highlighted areas."
     else "Needs practice. Review the specific feedback below."]
    ++ (if makhraj_score < 70 then ["Pay attention to articulation points (makhraj)."] else [])
    ++ (if timing_score < 70 then ["Work on timing - check madd elongation rules."] else [])
    ++ (if fluency_score < 70 then ["Practice for smoother, more fluent recitation."] else [])
    ++ (let problem_segments := (segments.filter (fun s => !s.issues.isEmpty)).length
        if 0 < problem_segments then [toString problem_segments ++ " segment(s) need attention."]
        else [])
  String.intercalate " " parts

/-- `comparison.compare_recitations`: score each of the `n_segments` chunks
of the alignment, fold the per-segment overall as `0.6 * makhraj + 0.4 *
timing`, and aggregate with the fluency score derived from the normalized
DTW distance. -/
noncomputable def compare_recitations (uf rf : AudioFeatures) (alignment : AlignmentResult)
    (n_segments : ℕ := 5) : PronunciationReport :=
  let feedbacks := (segment_alignment alignment n_segments).map (fun seg =>
    let user_start : ℕ := seg.1.1
    let user_end : ℕ := seg.1.2
    let ref_start : ℕ := seg.2.1
    let ref_end : ℕ := seg.2.2
    let start_time : ℚ := (user_start : ℚ) * (uf.hop_length : ℚ) / (uf.sample_rate : ℚ)
    let end_time : ℚ := (user_end : ℚ) * (uf.hop_length : ℚ) / (uf.sample_rate : ℚ)
    let makhraj_score := compare_mfcc_segment
      (colSlice uf.mfcc (user_start : ℤ) ((user_end : ℤ) + 1))
      (colSlice rf.mfcc (ref_start : ℤ) ((ref_end : ℤ) + 1))
    let timing_score := compare_timing_segment (user_start : ℤ) (user_end : ℤ) uf
      (ref_start : ℤ) (ref_end : ℤ) rf
    let issues := detect_issues uf rf (user_start : ℤ) (user_end : ℤ) (ref_start : ℤ)
      (ref_end : ℤ) makhraj_score (timing_score : ℝ)
    { start_time := start_time
      end_time := end_time
      makhraj_score := makhraj_score
      timing_score := (timing_score : ℝ)
      overall_score := 0.6 * makhraj_score + 0.4 * (timing_score : ℝ)
      issues := issues })
  let makhraj_scores := feedbacks.map (fun s => s.makhraj_score)
  let timing_scores := feedbacks.map (fun s => s.timing_score)
  let avg_makhraj := if makhraj_scores.isEmpty then 0 else listMeanR makhraj_scores
  let avg_timing := if timing_scores.isEmpty then 0 else listMeanR timing_scores
  let fluency_score :=
    min 100 (max 0 (100 - alignment.normalized_distance / 50 * 100))
  let overall_score := 0.5 * avg_makhraj + 0.3 * avg_timing + 0.2 * fluency_score
  { overall_score := overall_score
    makhraj_score := avg_makhraj
    timing_score := avg_timing
    fluency_score := fluency_score
    segments := feedbacks
    summary := generate_summary overall_score avg_makhraj avg_timing fluency_score feedbacks }

/-- The clamped reference start frame computed by `compare_word_by_word` for
a word boundary: `max(0, min(int((start_ms / 1000) / frame_duration),
n_frames - 1))`. -/
def word_ref_start_frame (rf : AudioFeatures) (w : WordTiming) : ℤ :=
  let frame_duration : ℚ := (rf.hop_length : ℚ) / (rf.sample_rate : ℚ)
  max 0 (min (pyint (w.start_ms / 1000 / frame_duration)) ((rf.n_frames : ℤ) - 1))

/-- The clamped reference end frame computed by `compare_word_by_word` for a
word boundary: `max(ref_start_frame + 1, min(int((end_ms / 1000) /
frame_duration), n_frames))`. -/
def word_ref_end_frame (rf : AudioFeatures) (w : WordTiming) : ℤ :=
  let frame_duration : ℚ := (rf.hop_length : ℚ) / (rf.sample_rate : ℚ)
  max (word_ref_start_frame rf w + 1)
    (min (pyint (w.end_ms / 1000 / frame_duration)) (rf.n_frames : ℤ))

/-- The user frames `compare_word_by_word` collects for a word: the first
components of the path pairs whose reference frame lies in the clamped
reference range of the word. -/
def word_user_frames (rf : AudioFeatures) (alignment : AlignmentResult) (w : WordTiming) :
    List ℕ :=
  (alignment.path.filter (fun p =>
    word_ref_start_frame rf w ≤ (p.2 : ℤ) ∧ (p.2 : ℤ) < word_ref_end_frame rf w)).map Prod.fst

/-- The per-word body of `comparison.compare_word_by_word`: the sentinel
short-circuit (`start_ms = end_ms = 0` gives a neutral 50/50/50 result), the
unmatched-word fallback (30/30/30 with one diagnostic), and otherwise the
scored result over the matched user span. -/
noncomputable def wordResult (uf rf : AudioFeatures) (alignment : AlignmentResult)
    (w : WordTiming) : WordResult :=
  if w.start_ms = 0 ∧ w.end_ms = 0 then
    { word_index := w.word_index, text := w.text, start_time := 0, end_time := 0
      makhraj_score := 50, timing_score := 50, overall_score := 50, issues := [] }
  else
    let ref_start_frame := word_ref_start_frame rf w
    let ref_end_frame := word_ref_end_frame rf w
    let user_frames_for_word := word_user_frames rf alignment w
    if user_frames_for_word.isEmpty then
      { word_index := w.word_index, text := w.text
        start_time := w.start_ms / 1000, end_time := w.end_ms / 1000
        makhraj_score := 30, timing_score := 30, overall_score := 30
        issues := ["Word may have been skipped or unclear"] }
    else
      let user_start_frame : ℤ := ((user_frames_for_word.min?.getD 0 : ℕ) : ℤ)
      let user_end_frame : ℤ := ((user_frames_for_word.max?.getD 0 : ℕ) : ℤ) + 1
      let user_frame_duration : ℚ := (uf.hop_length : ℚ) / (uf.sample_rate : ℚ)
      let makhraj_score := compare_mfcc_segment
        (colSlice uf.mfcc user_start_frame user_end_frame)
        (colSlice rf.mfcc ref_start_frame ref_end_frame)
      let timing_score := compare_timing_segment user_start_frame user_end_frame uf
        ref_start_frame ref_end_frame rf
      let issues := detect_word_issues uf rf user_start_frame user_end_frame
        ref_start_frame ref_end_frame makhraj_score timing_score w.text
      { word_index := w.word_index, text := w.text
        start_time := (user_start_frame : ℚ) * user_frame_duration
        end_time := (user_end_frame : ℚ) * user_frame_duration
        makhraj_score := makhraj_score, timing_score := (timing_score : ℝ)
        overall_score := 0.6 * makhraj_score + 0.4 * (timing_score : ℝ)
        issues := issues }

/-- `comparison.compare_word_by_word`: one result per supplied word-timing
record, in order. -/
noncomputable def compare_word_by_word (uf rf : AudioFeatures) (alignment : AlignmentResult)
    (word_timings : List WordTiming) : List WordResult :=
  word_timings.map (wordResult uf rf alignment)

/-! ## Theorems -/

/-- Shared concrete fixture: a 10-frame feature set with unit hop and unit
sample rate and a single MFCC coefficient row. -/
def rfW : AudioFeatures :=
  { audio := [], sample_rate := 1, duration := 10
    mfcc := [[0, 0, 0, 0, 0, 0, 0, 0, 0, 0]]
    mfcc_delta := []
    spectral_centroid := [0, 0, 0, 0, 0, 0, 0, 0, 0, 0]
    pitch := [0, 0, 0, 0, 0, 0, 0, 0, 0, 0]
    pitch_confidence := []
    rms_energy := [0, 0, 0, 0, 0, 0, 0, 0, 0, 0]
    zero_crossing_rate := [], frame_times := [], hop_length := 1, n_frames := 10 }

/-- Shared concrete fixture: an alignment whose path is empty. -/
def alW : AlignmentResult :=
  { path := [], distance := 0, normalized_distance := 0
    user_to_ref := [], ref_to_user := [], time_stretch := [] }

/-- Shared concrete fixture: a word record with non-sentinel timing. -/
def wW : WordTiming := { word_index := 0, text := "word", start_ms := 5000, end_ms := 6000 }

/-- Concrete fixture: an alignment whose path is the 7-entry diagonal. -/
def alC4 : AlignmentResult :=
  { path := [(0, 0), (1, 1), (2, 2), (3, 3), (4, 4), (5, 5), (6, 6)]
    distance := 0, normalized_distance := 0
    user_to_ref := [], ref_to_user := [], time_stretch := [] }

/-- The articulation-band (vocal-tract / fine-articulation) and
spectral-brightness diagnostics of `detect_issues`. -/
def articulation_diagnostics : List String :=
  ["Throat position may need adjustment - try deeper articulation",
   "Tongue position differs from reference - check makhraj",
   "Fine articulation differs - focus on letter clarity",
   "Sound is duller than reference - more clarity needed",
   "Sound is sharper than reference - soften the articulation",
   "Significant makhraj difference detected - review articulation point",
   "Letter characteristics need improvement"]

/-- The two severe articulation diagnostics of `detect_issues`. -/
def severe_articulation_diagnostics : List String :=
  ["Significant makhraj difference detected - review articulation point",
   "Letter characteristics need improvement"]

/-- C2: `compare_mfcc_segment` returns a value in [0, 100] for every pair of
coefficient-matrix windows including empty ones, and `compare_timing_segment`
returns a value in [0, 100] for every choice of frame spans and frame
rates. -/
theorem scores_bounded :
    (∀ user_mfcc ref_mfcc : List (List ℚ),
      0 ≤ compare_mfcc_segment user_mfcc ref_mfcc ∧
        compare_mfcc_segment user_mfcc ref_mfcc ≤ 100) ∧
    (∀ (user_start user_end ref_start ref_end : ℤ) (uf rf : AudioFeatures),
      0 ≤ compare_timing_segment user_start user_end uf ref_start ref_end rf ∧
        compare_timing_segment user_start user_end uf ref_start ref_end rf ≤ 100) := by
  constructor
  · intro um rm
    unfold compare_mfcc_segment
    split
    · norm_num
    · exact ⟨le_min (by norm_num) (mul_nonneg (le_max_left _ _) (by norm_num)),
        min_le_left _ _⟩
  · intro us ue rs re uf rf
    by_cases h : frame_span_seconds rf rs re = 0
    · norm_num [compare_timing_segment, h]
    · simp only [compare_timing_segment, if_neg h]
      exact ⟨le_min (by norm_num) (le_max_left _ _), min_le_left _ _⟩

/-- C3: `align_audio_features` fails with the DimensionMismatch error exactly
when the two MFCC matrices disagree in coefficient count, and returns a
result in every other case - the malformed shape is the only failure. -/
theorem align_dimension_mismatch (u r : AudioFeatures) :
    (align_audio_features u r = Except.error "DimensionMismatch" ↔
      u.mfcc.length ≠ r.mfcc.length) ∧
    ((∃ res, align_audio_features u r = Except.ok res) ↔ u.mfcc.length = r.mfcc.length) := by
  unfold align_audio_features
  by_cases h : u.mfcc.length = r.mfcc.length <;> simp [h]

/-- C10: for a reference feature set with at least one frame and a word
record with non-sentinel timing, the millisecond-to-frame conversion and
clamping of `compare_word_by_word` yield a non-empty in-bounds window:
`0 ≤ ref_start_frame < ref_end_frame ≤ n_frames`. -/
theorem word_frame_clamp_sound (rf : AudioFeatures) (w : WordTiming)
    (hn : 1 ≤ rf.n_frames) (hns : ¬(w.start_ms = 0 ∧ w.end_ms = 0)) :
    0 ≤ word_ref_start_frame rf w ∧
    word_ref_start_frame rf w < word_ref_end_frame rf w ∧
    word_ref_end_frame rf w ≤ (rf.n_frames : ℤ) := by
  have hn' : (1 : ℤ) ≤ (rf.n_frames : ℤ) := by exact_mod_cast hn
  have h0 : 0 ≤ word_ref_start_frame rf w := le_max_left _ _
  have h1 : word_ref_start_frame rf w ≤ (rf.n_frames : ℤ) - 1 :=
    max_le (by omega) (min_le_right _ _)
  refine ⟨h0, ?_, ?_⟩
  · exact lt_of_lt_of_le (by omega) (le_max_left _ _)
  · exact max_le (by omega) (min_le_right _ _)

/-- C10 witness: the clamp soundness at the concrete 10-frame reference and
the word record spanning 5000-6000 ms. -/
theorem word_frame_clamp_sound_witness :
    0 ≤ word_ref_start_frame rfW wW ∧
    word_ref_start_frame rfW wW < word_ref_end_frame rfW wW ∧
    word_ref_end_frame rfW wW ≤ (rfW.n_frames : ℤ) :=
  word_frame_clamp_sound rfW wW (by norm_num [rfW]) (by norm_num [wW])

/-- C7: a word record carrying the zero-duration sentinel
(`start_ms = end_ms = 0`) is short-circuited by `compare_word_by_word` to a
neutral result: all three scores equal 50 and the diagnostics list is
empty, independent of the features and the alignment. -/
theorem word_sentinel_neutral (uf rf : AudioFeatures) (al : AlignmentResult)
    (ws : List WordTiming) (i : ℕ) (w : WordTiming)
    (hw : ws[i]? = some w) (h0 : w.start_ms = 0) (h1 : w.end_ms = 0) :
    (compare_word_by_word uf rf al ws)[i]? = some
      { word_index := w.word_index, text := w.text, start_time := 0, end_time := 0
        makhraj_score := 50, timing_score := 50, overall_score := 50, issues := [] } := by
  unfold compare_word_by_word
  rw [List.getElem?_map, hw]
  simp [wordResult, h0, h1]

/-- C7 witness: the sentinel short-circuit at a concrete one-word list. -/
theorem word_sentinel_neutral_witness :
    (compare_word_by_word rfW rfW alW
        [{ word_index := 3, text := "bismillah", start_ms := 0, end_ms := 0 }])[0]? = some
      { word_index := 3, text := "bismillah", start_time := 0, end_time := 0
        makhraj_score := 50, timing_score := 50, overall_score := 50, issues := [] } :=
  word_sentinel_neutral rfW rfW alW _ 0
    { word_index := 3, text := "bismillah", start_ms := 0, end_ms := 0 } rfl rfl rfl

/-- C8: a word record with non-sentinel timing whose clamped reference range
matches no pair of the alignment path gets the fixed low-confidence result:
all three scores equal 30 and the diagnostics are exactly the one
skipped-or-unclear string. -/
theorem word_unmatched_low_confidence (uf rf : AudioFeatures) (al : AlignmentResult)
    (ws : List WordTiming) (i : ℕ) (w : WordTiming)
    (hw : ws[i]? = some w) (hns : ¬(w.start_ms = 0 ∧ w.end_ms = 0))
    (hempty : word_user_frames rf al w = []) :
    (compare_word_by_word uf rf al ws)[i]? = some
      { word_index := w.word_index, text := w.text
        start_time := w.start_ms / 1000, end_time := w.end_ms / 1000
        makhraj_score := 30, timing_score := 30, overall_score := 30
        issues := ["Word may have been skipped or unclear"] } := by
  unfold compare_word_by_word
  rw [List.getElem?_map, hw]
  simp [wordResult, hns, hempty]

/-- C8 witness: the unmatched-word fallback at a concrete word over an
empty alignment path. -/
theorem word_unmatched_low_confidence_witness :
    (compare_word_by_word rfW rfW alW [wW])[0]? = some
      { word_index := wW.word_index, text := wW.text
        start_time := wW.start_ms / 1000, end_time := wW.end_ms / 1000
        makhraj_score := 30, timing_score := 30, overall_score := 30
        issues := ["Word may have been skipped or unclear"] } :=
  word_unmatched_low_confidence rfW rfW alW [wW] 0 wW rfl (by norm_num [wW])
    (by simp [word_user_frames, alW])

/-- Clamping a value already inside [0, 100] is the identity. -/
theorem clamp_id (x : ℚ) (h0 : 0 ≤ x) (h1 : x ≤ 100) : min 100 (max 0 x) = x := by
  rw [max_eq_right h0, min_eq_right h1]

/-- With a nonzero reference duration, `compare_timing_segment` is the
clamped band score of the duration quotient. -/
theorem compare_timing_eq_band (us ue rs re : ℤ) (uf rf : AudioFeatures)
    (h : frame_span_seconds rf rs re ≠ 0) :
    compare_timing_segment us ue uf rs re rf =
      min 100 (max 0 (timing_band_score
        (frame_span_seconds uf us ue / frame_span_seconds rf rs re))) := by
  simp only [compare_timing_segment, if_neg h]

/-- Band-score value on the good band [0.8, 1.2]. -/
theorem timing_band_score_good (rat : ℚ) (ha : 0.8 ≤ rat) (hb : rat ≤ 1.2) :
    timing_band_score rat = 100 - |rat - 1| / 0.2 * 20 := by
  unfold timing_band_score
  rw [if_pos ⟨ha, hb⟩]

/-- Band-score value on the acceptable band [0.5, 1.5] outside the good
band, written uniformly in the deviation `|rat - 1|`. -/
theorem timing_band_score_acceptable (rat : ℚ) (ha : 0.5 ≤ rat) (hb : rat ≤ 1.5)
    (hout : ¬(0.8 ≤ rat ∧ rat ≤ 1.2)) :
    timing_band_score rat = 80 - (|rat - 1| - 0.2) * 100 := by
  unfold timing_band_score
  rw [if_neg hout, if_pos ⟨ha, hb⟩]
  rcases lt_or_ge rat 1 with h | h
  · rw [if_pos h, abs_of_neg (by linarith : rat - 1 < 0)]; ring
  · rw [if_neg (not_lt.mpr h), abs_of_nonneg (by linarith : (0 : ℚ) ≤ rat - 1)]; ring

/-- Band-score value outside the acceptable band. -/
theorem timing_band_score_outside (rat : ℚ) (hout : ¬(0.8 ≤ rat ∧ rat ≤ 1.2))
    (hout2 : ¬(0.5 ≤ rat ∧ rat ≤ 1.5)) :
    timing_band_score rat = max 0 (50 - |rat - 1| * 25) := by
  unfold timing_band_score
  rw [if_neg hout, if_neg hout2]

/-- Clamped score of the good band: the clamp is the identity there. -/
theorem compare_timing_good (us ue rs re : ℤ) (uf rf : AudioFeatures) (rat : ℚ)
    (h : frame_span_seconds rf rs re ≠ 0)
    (hrat : rat = frame_span_seconds uf us ue / frame_span_seconds rf rs re)
    (ha : 0.8 ≤ rat) (hb : rat ≤ 1.2) :
    compare_timing_segment us ue uf rs re rf = 100 - |rat - 1| / 0.2 * 20 := by
  have habs : |rat - 1| ≤ 0.2 := abs_le.mpr ⟨by linarith, by linarith⟩
  have hnn : (0 : ℚ) ≤ |rat - 1| := abs_nonneg _
  have hrw : |rat - 1| / 0.2 * 20 = |rat - 1| * 100 := by ring
  rw [compare_timing_eq_band us ue rs re uf rf h, ← hrat,
    timing_band_score_good rat ha hb, clamp_id _ (by linarith) (by linarith)]

/-- Clamped score of the acceptable band: the clamp is the identity there. -/
theorem compare_timing_acceptable (us ue rs re : ℤ) (uf rf : AudioFeatures) (rat : ℚ)
    (h : frame_span_seconds rf rs re ≠ 0)
    (hrat : rat = frame_span_seconds uf us ue / frame_span_seconds rf rs re)
    (ha : 0.5 ≤ rat) (hb : rat ≤ 1.5) (hout : ¬(0.8 ≤ rat ∧ rat ≤ 1.2)) :
    compare_timing_segment us ue uf rs re rf = 80 - (|rat - 1| - 0.2) * 100 := by
  have habs : |rat - 1| ≤ 0.5 := abs_le.mpr ⟨by linarith, by linarith⟩
  have hnn : (0 : ℚ) ≤ |rat - 1| := abs_nonneg _
  rw [compare_timing_eq_band us ue rs re uf rf h, ← hrat,
    timing_band_score_acceptable rat ha hb hout, clamp_id _ (by linarith) (by linarith)]

/-- Clamped score outside the acceptable band: the outer clamp collapses
onto the inner `max 0`. -/
theorem compare_timing_outside (us ue rs re : ℤ) (uf rf : AudioFeatures) (rat : ℚ)
    (h : frame_span_seconds rf rs re ≠ 0)
    (hrat : rat = frame_span_seconds uf us ue / frame_span_seconds rf rs re)
    (hout : ¬(0.8 ≤ rat ∧ rat ≤ 1.2)) (hout2 : ¬(0.5 ≤ rat ∧ rat ≤ 1.5)) :
    compare_timing_segment us ue uf rs re rf = max 0 (50 - |rat - 1| * 25) := by
  have hnn : (0 : ℚ) ≤ |rat - 1| := abs_nonneg _
  rw [compare_timing_eq_band us ue rs re uf rf h, ← hrat,
    timing_band_score_outside rat hout hout2]
  have h1 : max 0 (max 0 (50 - |rat - 1| * 25)) = max 0 (50 - |rat - 1| * 25) := by
    rw [← max_assoc, max_self]
  rw [h1, min_eq_right (max_le (by norm_num) (by linarith))]

/-- C5: with nonzero reference duration, `compare_timing_segment` scores the
duration quotient piecewise exactly as the source does: linearly from 80 to
100 on [0.8, 1.2] with the deviation scaled by 0.2 (peak 100 at quotient
1.0), linearly from 50 to 80 on [0.5, 0.8) and (1.2, 1.5] by the distance
from the nearer edge of the good band scaled by 0.3, max(0, 50 -
25|quotient - 1|) outside [0.5, 1.5], and in particular exactly 25 at
quotient 2.0. -/
theorem timing_piecewise (us ue rs re : ℤ) (uf rf : AudioFeatures) (rat : ℚ)
    (h : frame_span_seconds rf rs re ≠ 0)
    (hrat : rat = frame_span_seconds uf us ue / frame_span_seconds rf rs re) :
    (0.8 ≤ rat ∧ rat ≤ 1.2 →
      compare_timing_segment us ue uf rs re rf = 100 - |rat - 1| / 0.2 * 20) ∧
    (0.5 ≤ rat ∧ rat < 0.8 →
      compare_timing_segment us ue uf rs re rf = 80 - (0.8 - rat) / 0.3 * 30) ∧
    (1.2 < rat ∧ rat ≤ 1.5 →
      compare_timing_segment us ue uf rs re rf = 80 - (rat - 1.2) / 0.3 * 30) ∧
    (rat < 0.5 ∨ 1.5 < rat →
      compare_timing_segment us ue uf rs re rf = max 0 (50 - |rat - 1| * 25)) ∧
    (rat = 1 → compare_timing_segment us ue uf rs re rf = 100) ∧
    (rat = 2 → compare_timing_segment us ue uf rs re rf = 25) := by
  refine ⟨fun hb => compare_timing_good us ue rs re uf rf rat h hrat hb.1 hb.2,
    fun hb => ?_, fun hb => ?_, fun hb => ?_, fun hb => ?_, fun hb => ?_⟩
  · rw [compare_timing_acceptable us ue rs re uf rf rat h hrat hb.1 (by linarith [hb.2])
      (by rintro ⟨hc, -⟩; linarith [hb.2]),
      abs_of_neg (by linarith [hb.2] : rat - 1 < 0)]
    ring
  · rw [compare_timing_acceptable us ue rs re uf rf rat h hrat (by linarith [hb.1]) hb.2
      (by rintro ⟨-, hc⟩; linarith [hb.1]),
      abs_of_nonneg (by linarith [hb.1] : (0 : ℚ) ≤ rat - 1)]
    ring
  · rcases hb with hb | hb
    · exact compare_timing_outside us ue rs re uf rf rat h hrat
        (by rintro ⟨hc, -⟩; linarith) (by rintro ⟨hc, -⟩; linarith)
    · exact compare_timing_outside us ue rs re uf rf rat h hrat
        (by rintro ⟨-, hc⟩; linarith) (by rintro ⟨-, hc⟩; linarith)
  · subst hb
    rw [compare_timing_good us ue rs re uf rf 1 h hrat (by norm_num) (by norm_num)]
    norm_num
  · subst hb
    rw [compare_timing_outside us ue rs re uf rf 2 h hrat (by norm_num) (by norm_num)]
    norm_num [abs_of_nonneg]

/-- C5 witness: a user span of 4 unit frames against a reference span of 2
unit frames has duration quotient 2 and scores exactly 25. -/
theorem timing_piecewise_witness :
    compare_timing_segment 0 4 rfW 0 2 rfW = 25 :=
  (timing_piecewise 0 4 0 2 rfW rfW 2 (by norm_num [frame_span_seconds, rfW])
    (by norm_num [frame_span_seconds, rfW])).2.2.2.2.2 rfl

/-- C6: with nonzero reference durations, `compare_timing_segment` attains
its maximum 100 exactly at duration quotient 1.0, and within the good band
[0.8, 1.2] as well as within the acceptable band [0.5, 0.8) and (1.2, 1.5]
the score strictly decreases as the deviation of the quotient from 1
grows. -/
theorem timing_max_and_strict (us ue rs re vs ve ss se : ℤ)
    (uf rf vf sf : AudioFeatures) (rat rat' : ℚ)
    (h : frame_span_seconds rf rs re ≠ 0) (h' : frame_span_seconds sf ss se ≠ 0)
    (hrat : rat = frame_span_seconds uf us ue / frame_span_seconds rf rs re)
    (hrat' : rat' = frame_span_seconds vf vs ve / frame_span_seconds sf ss se) :
    (compare_timing_segment us ue uf rs re rf = 100 ↔ rat = 1) ∧
    (0.8 ≤ rat ∧ rat ≤ 1.2 → 0.8 ≤ rat' ∧ rat' ≤ 1.2 → |rat - 1| < |rat' - 1| →
      compare_timing_segment vs ve vf ss se sf < compare_timing_segment us ue uf rs re rf) ∧
    ((0.5 ≤ rat ∧ rat ≤ 1.5) ∧ ¬(0.8 ≤ rat ∧ rat ≤ 1.2) →
      (0.5 ≤ rat' ∧ rat' ≤ 1.5) ∧ ¬(0.8 ≤ rat' ∧ rat' ≤ 1.2) → |rat - 1| < |rat' - 1| →
      compare_timing_segment vs ve vf ss se sf < compare_timing_segment us ue uf rs re rf) := by
  refine ⟨⟨fun h100 => ?_, fun h1 => ?_⟩, fun hb hb' hlt => ?_, fun hb hb' hlt => ?_⟩
  · by_cases hg : 0.8 ≤ rat ∧ rat ≤ 1.2
    · rw [compare_timing_good us ue rs re uf rf rat h hrat hg.1 hg.2] at h100
      have hrw : |rat - 1| / 0.2 * 20 = |rat - 1| * 100 := by ring
      have hz : |rat - 1| = 0 := by
        have hnn : (0 : ℚ) ≤ |rat - 1| := abs_nonneg _
        linarith
      have := abs_eq_zero.mp hz
      linarith [this]
    · by_cases hacc : 0.5 ≤ rat ∧ rat ≤ 1.5
      · rw [compare_timing_acceptable us ue rs re uf rf rat h hrat hacc.1 hacc.2 hg] at h100
        have habs : (0.2 : ℚ) < |rat - 1| := by
          rcases not_and_or.mp hg with hc | hc
          · have : rat < 0.8 := not_le.mp hc
            calc (0.2 : ℚ) < 1 - rat := by linarith
            _ ≤ |rat - 1| := by rw [abs_sub_comm]; exact le_abs_self _
          · have : 1.2 < rat := not_le.mp hc
            calc (0.2 : ℚ) < rat - 1 := by linarith
            _ ≤ |rat - 1| := le_abs_self _
        linarith
      · rw [compare_timing_outside us ue rs re uf rf rat h hrat hg hacc] at h100
        have : max 0 (50 - |rat - 1| * 25) ≤ 50 :=
          max_le (by norm_num) (by linarith [abs_nonneg (rat - 1)])
        linarith
  · subst h1
    rw [compare_timing_good us ue rs re uf rf 1 h hrat (by norm_num) (by norm_num)]
    norm_num
  · rw [compare_timing_good us ue rs re uf rf rat h hrat hb.1 hb.2,
      compare_timing_good vs ve ss se vf sf rat' h' hrat' hb'.1 hb'.2]
    have e1 : |rat - 1| / 0.2 * 20 = |rat - 1| * 100 := by ring
    have e2 : |rat' - 1| / 0.2 * 20 = |rat' - 1| * 100 := by ring
    linarith
  · rw [compare_timing_acceptable us ue rs re uf rf rat h hrat hb.1.1 hb.1.2 hb.2,
      compare_timing_acceptable vs ve ss se vf sf rat' h' hrat' hb'.1.1 hb'.1.2 hb'.2]
    linarith

/-- C6 witness: the quotient-1 span pair attains the maximum score. -/
theorem timing_max_and_strict_witness :
    compare_timing_segment 0 2 rfW 0 2 rfW = 100 :=
  (timing_max_and_strict 0 2 0 2 0 2 0 2 rfW rfW rfW rfW 1 1
    (by norm_num [frame_span_seconds, rfW]) (by norm_num [frame_span_seconds, rfW])
    (by norm_num [frame_span_seconds, rfW]) (by norm_num [frame_span_seconds, rfW])).1.mpr rfl

/-- The backtracked path fragment from `(i, j)` always starts at `(i, j)`. -/
theorem dtwBacktrack_head (D : ℕ → ℕ → ℝ) (i j : ℕ) :
    (dtwBacktrack D i j).head? = some (i, j) := by
  induction i, j using dtwBacktrack.induct D with
  | case1 => simp [dtwBacktrack]
  | case2 j ih => simp [dtwBacktrack]
  | case3 i ih => simp [dtwBacktrack]
  | case4 i j h ih => simp [dtwBacktrack, h]
  | case5 i j h1 h2 ih => simp [dtwBacktrack, h1, h2]
  | case6 i j h1 h2 ih => simp [dtwBacktrack, h1, h2]

/-- The backtracked path fragment is never empty. -/
theorem dtwBacktrack_ne_nil (D : ℕ → ℕ → ℝ) (i j : ℕ) : dtwBacktrack D i j ≠ [] := by
  intro hnil
  have hh := dtwBacktrack_head D i j
  rw [hnil] at hh
  simp at hh

/-- Prepending to a non-empty list keeps its last element. -/
theorem getLast?_cons_of_ne_nil {α : Type} (a : α) (l : List α) (h : l ≠ []) :
    (a :: l).getLast? = l.getLast? := by
  cases l with
  | nil => exact absurd rfl h
  | cons b t => exact List.getLast?_cons_cons

/-- The backtracked path fragment always ends at the origin `(0, 0)`. -/
theorem dtwBacktrack_getLast (D : ℕ → ℕ → ℝ) (i j : ℕ) :
    (dtwBacktrack D i j).getLast? = some (0, 0) := by
  induction i, j using dtwBacktrack.induct D with
  | case1 => simp [dtwBacktrack]
  | case2 j ih =>
      have he : dtwBacktrack D 0 (j + 1) = (0, j + 1) :: dtwBacktrack D 0 j := by
        simp [dtwBacktrack]
      rw [he, getLast?_cons_of_ne_nil _ _ (dtwBacktrack_ne_nil D 0 j), ih]
  | case3 i ih =>
      have he : dtwBacktrack D (i + 1) 0 = (i + 1, 0) :: dtwBacktrack D i 0 := by
        simp [dtwBacktrack]
      rw [he, getLast?_cons_of_ne_nil _ _ (dtwBacktrack_ne_nil D i 0), ih]
  | case4 i j h ih =>
      have he : dtwBacktrack D (i + 1) (j + 1) = (i + 1, j + 1) :: dtwBacktrack D i j := by
        simp [dtwBacktrack, h]
      rw [he, getLast?_cons_of_ne_nil _ _ (dtwBacktrack_ne_nil D i j), ih]
  | case5 i j h1 h2 ih =>
      have he : dtwBacktrack D (i + 1) (j + 1) = (i + 1, j + 1) :: dtwBacktrack D i (j + 1) := by
        simp [dtwBacktrack, h1, h2]
      rw [he, getLast?_cons_of_ne_nil _ _ (dtwBacktrack_ne_nil D i (j + 1)), ih]
  | case6 i j h1 h2 ih =>
      have he : dtwBacktrack D (i + 1) (j + 1) = (i + 1, j + 1) :: dtwBacktrack D (i + 1) j := by
        simp [dtwBacktrack, h1, h2]
      rw [he, getLast?_cons_of_ne_nil _ _ (dtwBacktrack_ne_nil D (i + 1) j), ih]

/-- Along the backtracked fragment both coordinates never increase. -/
theorem dtwBacktrack_chain (D : ℕ → ℕ → ℝ) (i j : ℕ) :
    List.Chain' (fun p q : ℕ × ℕ => q.1 ≤ p.1 ∧ q.2 ≤ p.2) (dtwBacktrack D i j) := by
  induction i, j using dtwBacktrack.induct D with
  | case1 => simp [dtwBacktrack]
  | case2 j ih =>
      have he : dtwBacktrack D 0 (j + 1) = (0, j + 1) :: dtwBacktrack D 0 j := by
        simp [dtwBacktrack]
      rw [he]
      refine List.chain'_cons'.mpr ⟨fun y hy => ?_, ih⟩
      rw [dtwBacktrack_head D 0 j] at hy
      cases hy
      exact ⟨le_refl 0, Nat.le_succ j⟩
  | case3 i ih =>
      have he : dtwBacktrack D (i + 1) 0 = (i + 1, 0) :: dtwBacktrack D i 0 := by
        simp [dtwBacktrack]
      rw [he]
      refine List.chain'_cons'.mpr ⟨fun y hy => ?_, ih⟩
      rw [dtwBacktrack_head D i 0] at hy
      cases hy
      exact ⟨Nat.le_succ i, le_refl 0⟩
  | case4 i j h ih =>
      have he : dtwBacktrack D (i + 1) (j + 1) = (i + 1, j + 1) :: dtwBacktrack D i j := by
        simp [dtwBacktrack, h]
      rw [he]
      refine List.chain'_cons'.mpr ⟨fun y hy => ?_, ih⟩
      rw [dtwBacktrack_head D i j] at hy
      cases hy
      exact ⟨Nat.le_succ i, Nat.le_succ j⟩
  | case5 i j h1 h2 ih =>
      have he : dtwBacktrack D (i + 1) (j + 1) = (i + 1, j + 1) :: dtwBacktrack D i (j + 1) := by
        simp [dtwBacktrack, h1, h2]
      rw [he]
      refine List.chain'_cons'.mpr ⟨fun y hy => ?_, ih⟩
      rw [dtwBacktrack_head D i (j + 1)] at hy
      cases hy
      exact ⟨Nat.le_succ i, le_refl (j + 1)⟩
  | case6 i j h1 h2 ih =>
      have he : dtwBacktrack D (i + 1) (j + 1) = (i + 1, j + 1) :: dtwBacktrack D (i + 1) j := by
        simp [dtwBacktrack, h1, h2]
      rw [he]
      refine List.chain'_cons'.mpr ⟨fun y hy => ?_, ih⟩
      rw [dtwBacktrack_head D (i + 1) j] at hy
      cases hy
      exact ⟨le_refl (i + 1), Nat.le_succ j⟩

/-- C1: for input feature sets with at least one frame each, the path of the
alignment returned by `align_audio_features` is non-empty, starts at
`(0, 0)`, ends at `(Nu - 1, Nr - 1)` for the two frame counts, and both
coordinates are monotonically non-decreasing from each pair to the next. -/
theorem align_path_valid (u r : AudioFeatures) (res : AlignmentResult)
    (hu : 1 ≤ u.n_frames) (hr : 1 ≤ r.n_frames)
    (hres : align_audio_features u r = Except.ok res) :
    res.path ≠ [] ∧ res.path.head? = some (0, 0) ∧
    res.path.getLast? = some (u.n_frames - 1, r.n_frames - 1) ∧
    List.Chain' (fun p q : ℕ × ℕ => p.1 ≤ q.1 ∧ p.2 ≤ q.2) res.path := by
  have hres' : res = alignCore u r := by
    unfold align_audio_features at hres
    split at hres
    · cases hres
      rfl
    · cases hres
  subst hres'
  have hpath : (alignCore u r).path =
      (dtwBacktrack (dtwAccCost (localDist u r)) (u.n_frames - 1) (r.n_frames - 1)).reverse :=
    rfl
  rw [hpath]
  refine ⟨?_, ?_, ?_, ?_⟩
  · simp [dtwBacktrack_ne_nil]
  · rw [List.head?_reverse]
    exact dtwBacktrack_getLast _ _ _
  · rw [List.getLast?_reverse]
    exact dtwBacktrack_head _ _ _
  · rw [List.chain'_reverse]
    exact dtwBacktrack_chain _ _ _

/-- C1 witness: path validity of the alignment of the concrete 10-frame
fixture against itself. -/
theorem align_path_valid_witness :
    (alignCore rfW rfW).path ≠ [] ∧ (alignCore rfW rfW).path.head? = some (0, 0) ∧
    (alignCore rfW rfW).path.getLast? = some (rfW.n_frames - 1, rfW.n_frames - 1) ∧
    List.Chain' (fun p q : ℕ × ℕ => p.1 ≤ q.1 ∧ p.2 ≤ q.2) (alignCore rfW rfW).path :=
  align_path_valid rfW rfW (alignCore rfW rfW) (by norm_num [rfW]) (by norm_num [rfW]) rfl

/-- C4 counterexample: on a 7-entry path split into 5 segments the chunks of
`segment_alignment` are the singleton index ranges 0..4; path index 5 (and
6) lies in no chunk, so the chunks' union does not cover the entire path
even though only-the-last-chunk truncation would require it to. -/
theorem segment_alignment_uncovered :
    alC4.path.length = 7 ∧
    segment_alignment alC4 5 =
      [((0, 0), (0, 0)), ((1, 1), (1, 1)), ((2, 2), (2, 2)), ((3, 3), (3, 3)),
        ((4, 4), (4, 4))] ∧
    (∀ i, i < 5 → ¬((segmentRange 7 5 i).1 ≤ (5 : ℤ) ∧ (5 : ℤ) ≤ (segmentRange 7 5 i).2)) := by
  refine ⟨rfl, by decide, by decide⟩

/-- C4 (amended): for `1 ≤ n ≤ L` (the path length), `segment_alignment`
returns exactly `n` segments; chunk `i` is the index range
`[i*(L/n), (i+1)*(L/n) - 1]` (the truncating `min` with `L - 1` never
binds), so all `n` chunks are contiguous and of equal length `L/n`, their
union covers exactly the first `n*(L/n)` path indices - the whole path iff
`n` divides `L` - and segment `i` carries the user/reference coordinates of
the boundary path entries of chunk `i`. -/
theorem segment_alignment_partition (al : AlignmentResult) (n L s : ℕ)
    (hL : L = al.path.length) (hs : s = L / n) (h1 : 1 ≤ n) (h2 : n ≤ L) :
    (segment_alignment al n).length = n ∧
    (∀ i, i < n → segmentRange L n i = (((i * s : ℕ) : ℤ), (((i + 1) * s : ℕ) : ℤ) - 1)) ∧
    (∀ i, i < n → (segment_alignment al n)[i]? = some
        (((al.path.getD (i * s) (0, 0)).1, (al.path.getD ((i + 1) * s - 1) (0, 0)).1),
          ((al.path.getD (i * s) (0, 0)).2, (al.path.getD ((i + 1) * s - 1) (0, 0)).2))) ∧
    (∀ j : ℕ, (∃ i, i < n ∧ i * s ≤ j ∧ j < (i + 1) * s) ↔ j < n * s) ∧
    (n * s = L ↔ L % n = 0) := by
  have hn0 : 0 < n := h1
  have hs1 : 1 ≤ s := hs ▸ (Nat.one_le_div_iff hn0).mpr h2
  have hmul : n * s ≤ L := by
    rw [hs, Nat.mul_comm]
    exact Nat.div_mul_le_self L n
  have hstep : ∀ i, i < n → (i + 1) * s ≤ L := fun i hi =>
    le_trans (Nat.mul_le_mul_right s (Nat.succ_le_of_lt hi)) hmul
  have hrange : ∀ i, i < n →
      segmentRange L n i = (((i * s : ℕ) : ℤ), (((i + 1) * s : ℕ) : ℤ) - 1) := by
    intro i hi
    unfold segmentRange
    rw [← hs]
    have hle : (((i + 1) * s : ℕ) : ℤ) - 1 ≤ (L : ℤ) - 1 := by
      have := hstep i hi
      omega
    rw [min_eq_left hle]
  refine ⟨?_, hrange, ?_, ?_, ?_⟩
  · simp [segment_alignment]
  · intro i hi
    unfold segment_alignment
    rw [List.getElem?_map, List.getElem?_range hi, Option.map_some']
    have hLs : al.path.length = L := hL.symm
    rw [hLs, hrange i hi]
    have hpos : 0 < (i + 1) * s := Nat.mul_pos (Nat.succ_pos i) hs1
    have ht1 : (((i * s : ℕ) : ℤ)).toNat = i * s := Int.toNat_natCast _
    have ht2 : ((((i + 1) * s : ℕ) : ℤ) - 1).toNat = (i + 1) * s - 1 := by omega
    have hc1 : (0 : ℤ) ≤ ((i * s : ℕ) : ℤ) := by omega
    have hc2 : (0 : ℤ) ≤ (((i + 1) * s : ℕ) : ℤ) - 1 := by omega
    simp only [pyGetD, if_pos hc1, if_pos hc2, ht1, ht2]
  · intro j
    constructor
    · rintro ⟨i, hi, hij1, hij2⟩
      exact lt_of_lt_of_le hij2 (Nat.mul_le_mul_right s (Nat.succ_le_of_lt hi))
    · intro hj
      have hs0 : 0 < s := hs1
      refine ⟨j / s, (Nat.div_lt_iff_lt_mul hs0).mpr hj, Nat.div_mul_le_self j s, ?_⟩
      have hdm : s * (j / s) + j % s = j := Nat.div_add_mod j s
      have hmod : j % s < s := Nat.mod_lt _ hs0
      have expand : (j / s + 1) * s = s * (j / s) + s := by ring
      rw [expand]
      linarith
  · have hdm : n * (L / n) + L % n = L := Nat.div_add_mod L n
    rw [← hs] at hdm
    constructor
    · intro hns
      omega
    · intro hmod0
      omega

/-- C4 witness: the partition facts at the concrete 7-entry diagonal path
split into 5 segments. -/
theorem segment_alignment_partition_witness :
    (segment_alignment alC4 5).length = 5 ∧
    (∀ i, i < 5 → segmentRange 7 5 i = (((i * 1 : ℕ) : ℤ), (((i + 1) * 1 : ℕ) : ℤ) - 1)) ∧
    (∀ i, i < 5 → (segment_alignment alC4 5)[i]? = some
        (((alC4.path.getD (i * 1) (0, 0)).1, (alC4.path.getD ((i + 1) * 1 - 1) (0, 0)).1),
          ((alC4.path.getD (i * 1) (0, 0)).2, (alC4.path.getD ((i + 1) * 1 - 1) (0, 0)).2))) ∧
    (∀ j : ℕ, (∃ i, i < 5 ∧ i * 1 ≤ j ∧ j < (i + 1) * 1) ↔ j < 5 * 1) ∧
    (5 * 1 = 7 ↔ 7 % 5 = 0) :=
  segment_alignment_partition alC4 5 7 1 rfl rfl (by norm_num) (by norm_num)

/-- Every message of the timing piece is one of its two fixed strings. -/
theorem detect_timing_piece_mem (uf rf : AudioFeatures) (us ue rs re : ℤ) (s : String)
    (hs : s ∈ detect_timing_piece uf rf us ue rs re) :
    s = "Reciting too fast - consider slowing down for proper madd" ∨
    s = "Reciting too slow - elongation may be excessive" := by
  simp only [detect_timing_piece] at hs
  split_ifs at hs <;> simp_all

/-- Every message of the low-band check is one of its two fixed strings. -/
theorem makhraj_low_msgs_mem (a b c : ℚ) (s : String) (hs : s ∈ makhraj_low_msgs a b c) :
    s = "Throat position may need adjustment - try deeper articulation" ∨
    s = "Tongue position differs from reference - check makhraj" := by
  simp only [makhraj_low_msgs] at hs
  split_ifs at hs <;> simp_all

/-- The high-band check only emits its fixed string. -/
theorem makhraj_high_msgs_mem (c : ℚ) (s : String) (hs : s ∈ makhraj_high_msgs c) :
    s = "Fine articulation differs - focus on letter clarity" := by
  simp only [makhraj_high_msgs] at hs
  split_ifs at hs <;> simp_all

/-- Every message of the brightness check is one of its two fixed strings. -/
theorem makhraj_centroid_msgs_mem (c : ℚ) (s : String) (hs : s ∈ makhraj_centroid_msgs c) :
    s = "Sound is duller than reference - more clarity needed" ∨
    s = "Sound is sharper than reference - soften the articulation" := by
  simp only [makhraj_centroid_msgs] at hs
  split_ifs at hs <;> simp_all

/-- With an articulation score of at least 80 the whole makhraj piece is
empty, whatever the coefficient and centroid differences are. -/
theorem detect_makhraj_piece_gate (uf rf : AudioFeatures) (us ue rs re : ℤ) (mk : ℝ)
    (h80 : ¬(mk < 80)) (h60 : ¬(mk < 60)) :
    detect_makhraj_piece uf rf us ue rs re mk = [] := by
  simp only [detect_makhraj_piece, if_neg h80, if_neg h60]
  split <;> simp

/-- Every message of the below-80 block of the makhraj piece is one of its
five fixed strings, whatever the measured differences are. -/
theorem makhraj_sub80_mem (a b c d e : ℚ) (s : String)
    (hs : s ∈ makhraj_low_msgs a b c ++ makhraj_high_msgs d ++ makhraj_centroid_msgs e) :
    s = "Throat position may need adjustment - try deeper articulation" ∨
    s = "Tongue position differs from reference - check makhraj" ∨
    s = "Fine articulation differs - focus on letter clarity" ∨
    s = "Sound is duller than reference - more clarity needed" ∨
    s = "Sound is sharper than reference - soften the articulation" := by
  simp only [List.mem_append] at hs
  rcases hs with (hl | hh) | hc
  · rcases makhraj_low_msgs_mem _ _ _ _ hl with h | h <;> simp [h]
  · simp [makhraj_high_msgs_mem _ _ hh]
  · rcases makhraj_centroid_msgs_mem _ _ hc with h | h <;> simp [h]

/-- With an articulation score of at least 60 the severe block is empty, so
every message of the makhraj piece comes from the below-80 block. -/
theorem detect_makhraj_piece_mem_60 (uf rf : AudioFeatures) (us ue rs re : ℤ) (mk : ℝ)
    (h60 : ¬(mk < 60)) (s : String) (hs : s ∈ detect_makhraj_piece uf rf us ue rs re mk) :
    s = "Throat position may need adjustment - try deeper articulation" ∨
    s = "Tongue position differs from reference - check makhraj" ∨
    s = "Fine articulation differs - focus on letter clarity" ∨
    s = "Sound is duller than reference - more clarity needed" ∨
    s = "Sound is sharper than reference - soften the articulation" := by
  simp only [detect_makhraj_piece, if_neg h60] at hs
  split_ifs at hs <;>
    first
      | exact absurd hs (List.not_mem_nil s)
      | (rw [List.append_nil] at hs
         exact makhraj_sub80_mem _ _ _ _ _ s hs)

/-- Every message of the pitch-level check is one of its two fixed strings. -/
theorem pitch_level_msgs_mem (r : ℚ) (s : String) (hs : s ∈ pitch_level_msgs r) :
    s = "Pitch is too high - recite in a lower, more natural tone" ∨
    s = "Pitch is too low - raise your tone slightly" := by
  simp only [pitch_level_msgs] at hs
  split_ifs at hs <;> simp_all

/-- The pitch-variation check only emits its fixed string. -/
theorem pitch_std_msgs_mem (uv rv : List ℚ) (s : String) (hs : s ∈ pitch_std_msgs uv rv) :
    s = "Pitch variation detected - maintain steadier tone" := by
  simp only [pitch_std_msgs] at hs
  split_ifs at hs <;> simp_all

/-- The pitch-jump check only emits its fixed string. -/
theorem pitch_jump_msgs_mem (uv rv : List ℚ) (s : String) (hs : s ∈ pitch_jump_msgs uv rv) :
    s = "Sudden pitch change detected - keep tone consistent" := by
  simp only [pitch_jump_msgs] at hs
  split_ifs at hs <;> simp_all

/-- Every message of the pitch piece is one of its four fixed strings. -/
theorem detect_pitch_piece_mem (uf rf : AudioFeatures) (us ue rs re : ℤ) (s : String)
    (hs : s ∈ detect_pitch_piece uf rf us ue rs re) :
    s = "Pitch is too high - recite in a lower, more natural tone" ∨
    s = "Pitch is too low - raise your tone slightly" ∨
    s = "Pitch variation detected - maintain steadier tone" ∨
    s = "Sudden pitch change detected - keep tone consistent" := by
  simp only [detect_pitch_piece] at hs
  split_ifs at hs <;>
    first
      | exact absurd hs (List.not_mem_nil s)
      | (simp only [List.mem_append] at hs
         rcases hs with (hl | hstd) | hj
         · rcases pitch_level_msgs_mem _ _ hl with h | h <;> simp [h]
         · simp [pitch_std_msgs_mem _ _ _ hstd]
         · simp [pitch_jump_msgs_mem _ _ _ hj])

/-- Every message of the energy piece is one of its two fixed strings. -/
theorem detect_energy_piece_mem (uf rf : AudioFeatures) (us ue rs re : ℤ) (s : String)
    (hs : s ∈ detect_energy_piece uf rf us ue rs re) :
    s = "Consider more emphasis/projection" ∨ s = "Reduce volume for this segment" := by
  simp only [detect_energy_piece] at hs
  split_ifs at hs <;> simp_all

/-- C9: for every segment whose articulation score is at least 80,
`detect_issues` emits no articulation-band and no spectral-brightness
diagnostics, no matter how large the coefficient-band or centroid
differences are; and with a score of at least 60 the two severe
articulation diagnostics never appear. -/
theorem detect_issues_articulation_gated (uf rf : AudioFeatures) (us ue rs re : ℤ)
    (mk ts : ℝ) :
    (80 ≤ mk → ∀ s ∈ detect_issues uf rf us ue rs re mk ts, s ∉ articulation_diagnostics) ∧
    (60 ≤ mk → ∀ s ∈ detect_issues uf rf us ue rs re mk ts,
      s ∉ severe_articulation_diagnostics) := by
  constructor
  · intro h80 s hs
    have h80' : ¬(mk < 80) := not_lt.mpr h80
    have h60' : ¬(mk < 60) := not_lt.mpr (by linarith)
    unfold detect_issues at hs
    rw [detect_makhraj_piece_gate uf rf us ue rs re mk h80' h60'] at hs
    simp only [List.append_nil, List.mem_append] at hs
    rcases hs with (ht | hp) | he
    · rcases detect_timing_piece_mem uf rf us ue rs re s ht with h | h <;> subst h <;> decide
    · rcases detect_pitch_piece_mem uf rf us ue rs re s hp with h | h | h | h <;>
        subst h <;> decide
    · rcases detect_energy_piece_mem uf rf us ue rs re s he with h | h <;> subst h <;> decide
  · intro h60 s hs
    have h60' : ¬(mk < 60) := not_lt.mpr h60
    unfold detect_issues at hs
    simp only [List.mem_append] at hs
    rcases hs with ((ht | hm) | hp) | he
    · rcases detect_timing_piece_mem uf rf us ue rs re s ht with h | h <;> subst h <;> decide
    · rcases detect_makhraj_piece_mem_60 uf rf us ue rs re mk h60' s hm with h | h | h | h | h <;>
        subst h <;> decide
    · rcases detect_pitch_piece_mem uf rf us ue rs re s hp with h | h | h | h <;>
        subst h <;> decide
    · rcases detect_energy_piece_mem uf rf us ue rs re s he with h | h <;> subst h <;> decide
